import Mathlib

/-!
Shallow embedding of the declaration source reconstruction engine
(detail/tokenizer.cpp of standardese): the `fixup` correction policy,
`read_source`, `read_range`, and the token-stream `skip` helpers.

Conventions of the embedding:
- the raw slice and the tail (buffer contents after the slice) are
  `List Char`; the end of the list models the NUL terminator of the
  C string, so a scan that would run past the NUL is modelled as `none`;
- `assert` failures (aborts) and undefined behaviour (out-of-range
  iterators, scans past the buffer) are modelled as `none`;
- `'\x7b'` and `'\x7d'` are the brace characters.
-/

namespace Standardese

/-- Cursor kinds relevant to `fixup`.  `FunctionTemplate` stands for a cursor
whose `clang_getTemplateCursorKind` is `CXCursor_FunctionDecl`; `OtherDecl`
is any other declaration kind; `NotADecl` any non-declaration kind. -/
inductive CursorKind where
  | FunctionDecl
  | FunctionTemplate
  | ClassDecl
  | StructDecl
  | UnionDecl
  | ClassTemplate
  | ClassTemplatePartialSpecialization
  | TemplateTypeParameter
  | NonTypeTemplateParameter
  | TemplateTemplateParameter
  | MacroDefinition
  | TypeAliasDecl
  | ParmDecl
  | CXXBaseSpecifier
  | OtherDecl
  | NotADecl
deriving DecidableEq

/-- A cursor, together with the answer the child visit of rule (a) would
produce: `bodyBegin` is the resolved begin offset of the first immediate
child that is a compound statement or try block (`0` when there is none,
matching the initialisation `auto body_begin = 0u;` in the source). -/
structure Cursor where
  kind : CursorKind
  bodyBegin : Nat
deriving DecidableEq

/-- `clang_getCursorKind(cur) == CXCursor_TemplateTypeParameter || ... NonType ... || ... TemplateTemplate ...` -/
def is_templ_param (k : CursorKind) : Bool :=
  k == .TemplateTypeParameter || k == .NonTypeTemplateParameter
    || k == .TemplateTemplateParameter

/-- `clang_getCursorKind(cur) == CXCursor_FunctionDecl || clang_getTemplateCursorKind(cur) == CXCursor_FunctionDecl` -/
def is_function (k : CursorKind) : Bool :=
  k == .FunctionDecl || k == .FunctionTemplate

/-- `clang_getCursorKind(cur)` is one of the five class-like kinds. -/
def is_class (k : CursorKind) : Bool :=
  k == .ClassDecl || k == .StructDecl || k == .UnionDecl
    || k == .ClassTemplate || k == .ClassTemplatePartialSpecialization

/-- `clang_isDeclaration` on the embedded kinds (libclang's declaration
ranges: base specifiers and preprocessing entities are not declarations). -/
def clang_isDeclaration (k : CursorKind) : Bool :=
  match k with
  | .FunctionDecl | .FunctionTemplate | .ClassDecl | .StructDecl | .UnionDecl
  | .ClassTemplate | .ClassTemplatePartialSpecialization
  | .TemplateTypeParameter | .NonTypeTemplateParameter
  | .TemplateTemplateParameter | .TypeAliasDecl | .ParmDecl | .OtherDecl => true
  | .MacroDefinition | .CXXBaseSpecifier | .NotADecl => false

/-- Whitespace in the sense of `std::isspace` in the default locale. -/
def isCppSpace (c : Char) : Bool :=
  c == ' ' || c == '\t' || c == '\n' || c == '\x0b' || c == '\x0c' || c == '\r'

/-- `result.back() == c`; the empty list has no last character
(`back()` on an empty `std::string` is undefined behaviour, the guards
below are only exercised on non-empty slices). -/
def backIs (l : List Char) (c : Char) : Bool :=
  l.getLast? == some c

/-- The character `*ptr` reads at this point of the tail: the head, or the
NUL terminator of the C buffer when the tail is exhausted. -/
def nextCh : List Char → Char
  | [] => '\x00'
  | c :: _ => c

/-- `while (*ptr != ';') { result += *ptr; ++ptr; }`: the characters copied
before the first `';'`.  When the buffer holds no `';'`, the C scan runs
past the NUL terminator (undefined behaviour): `none`. -/
def scanToSemi : List Char → Option (List Char)
  | [] => none
  | c :: rest =>
    if c == ';' then some []
    else (scanToSemi rest).map (fun cs => c :: cs)

/-- `while (*ptr != '\n' && *ptr) { result += *ptr; ++ptr; }`: the characters
copied before the first newline or the end of the buffer. -/
def scanToNewline : List Char → List Char
  | [] => []
  | c :: rest =>
    if c == '\n' then []
    else c :: scanToNewline rest

/-- The balanced-group copy of rule (c):
`for (auto bracket_count = 1; bracket_count != 0; ++ptr) { ... result += *ptr; }`
starting after the opening parenthesis was consumed.  Returns the copied
characters and the remaining tail; `none` when the brackets do not balance
within the buffer (the C loop runs past the NUL terminator). -/
def copyBalanced : Nat → List Char → Option (List Char × List Char)
  | _, [] => none
  | count, c :: rest =>
    let count' := if c == '(' then count + 1 else if c == ')' then count - 1 else count
    if count' == 0 then some ([c], rest)
    else
      match copyBalanced count' rest with
      | none => none
      | some (cs, rem) => some (c :: cs, rem)

/-- `if (*ptr != '>' && *ptr != ',' && result.back() == '>') result.pop_back();` -/
def templParamPop (r t : List Char) : List Char :=
  if nextCh t != '>' && nextCh t != ',' && backIs r '>' then r.dropLast else r

/-- Rule (c): the template-parameter fixup over the tail. -/
def ruleTemplParam (tail result : List Char) : Option (List Char) :=
  let t := tail.dropWhile isCppSpace
  if nextCh t == '(' then
    match copyBalanced 1 (t.drop 1) with
    | none => none
    | some (cs, rem) => some (templParamPop (result ++ '(' :: cs) rem)
  else
    some (templParamPop result t)

/-- Backward scan of rule (d): walking `result.rbegin()..rend()`, `true`
exactly when a `'('` is met before any `')'` (then one `')'` is appended). -/
def needsCloseParen : List Char → Bool
  | [] => false
  | c :: rest =>
    if c == ')' then false
    else if c == '(' then true
    else needsCloseParen rest

/-- Rule (d): the macro-definition fixup. -/
def fixupMacroDef (result : List Char) : List Char :=
  if needsCloseParen result.reverse then result ++ [')'] else result

/-- First statement of `fixup`: the `is_function && back == '\x7d'` /
`is_class && back != ';'` chain (rules (a) and (b)).  Rule (a) asserts
`body_begin > begin_offset` and erases `[begin + actual_size, end)`;
assertion failure or an out-of-range erase is `none`. -/
def fixupChain1 (cur : Cursor) (result : List Char) (beginOffset : Nat) :
    Option (List Char) :=
  if is_function cur.kind && backIs result '\x7d' then
    if beginOffset < cur.bodyBegin then
      if cur.bodyBegin - beginOffset ≤ result.length then
        some (result.take (cur.bodyBegin - beginOffset) ++ [';'])
      else none
    else none
  else if is_class cur.kind && !backIs result ';' then
    some (result ++ [';'])
  else
    some result

/-- Second statement of `fixup`: the template-parameter / macro / function /
type-alias / other-declaration chain (rules (c) to (g)). -/
def fixupChain2 (cur : Cursor) (tail result : List Char) : Option (List Char) :=
  if is_templ_param cur.kind then
    ruleTemplParam tail result
  else if cur.kind == .MacroDefinition then
    some (fixupMacroDef result)
  else if is_function cur.kind && !backIs result ';' then
    (scanToSemi tail).map (fun cs => result ++ cs ++ [';'])
  else if cur.kind == .TypeAliasDecl && !backIs result ';' then
    (scanToSemi tail).map (fun cs => result ++ cs ++ [';'])
  else if clang_isDeclaration cur.kind
      && cur.kind != .ParmDecl
      && cur.kind != .TemplateTypeParameter
      && cur.kind != .NonTypeTemplateParameter
      && cur.kind != .TemplateTemplateParameter
      && cur.kind != .CXXBaseSpecifier then
    some (result ++ scanToNewline tail)
  else
    some result

/-- `fixup(cur, ptr, result, begin_offset)`: the two statements run in
sequence on the same `result`. -/
def fixup (cur : Cursor) (tail result : List Char) (beginOffset : Nat) :
    Option (List Char) :=
  (fixupChain1 cur result beginOffset).bind (fun r1 => fixupChain2 cur tail r1)

/-- `detail::tokenizer::read_source`.  `hasFile` is whether `get_range`
returned a non-null file, `fileEq` whether `clang_File_isEqual(file,
tu.get_cxfile())` holds; the two `assert`s abort (`none`) when violated. -/
def read_source (hasFile fileEq : Bool) (beginOff endOff : Nat)
    (source : List Char) (cur : Cursor) : Option (List Char) :=
  if !hasFile then some []
  else if !fileEq then none
  else if !(decide (beginOff < endOff)) then none
  else
    fixup cur (source.drop endOff)
      ((source.drop beginOff).take (endOff - beginOff)) beginOff

/-- `detail::tokenizer::read_range`: re-resolves the provider's offsets and
replaces the end offset by `begin_offset + read_source(tu, cur).size()`. -/
def read_range (hasFile fileEq : Bool) (beginOff endOff : Nat)
    (source : List Char) (cur : Cursor) : Option (Nat × Nat) :=
  match read_source hasFile fileEq beginOff endOff source cur with
  | none => none
  | some s => some (beginOff, beginOff + s.length)

/-! Rule decomposition: each correction rule as a standalone guard and a
standalone action, and the priority selection inside each of the two
statement chains.  Used to relate `fixup` to the rule-dispatch reading of
the policy. -/

/-- Identifiers for the correction rules (a) to (g). -/
inductive RuleId where
  | ra | rb | rc | rd | re | rf | rg
deriving DecidableEq

/-- The raw guard of each rule, read off the corresponding `if` condition. -/
def ruleGuard : RuleId → Cursor → List Char → Bool
  | .ra, cur, res => is_function cur.kind && backIs res '\x7d'
  | .rb, cur, res => is_class cur.kind && !backIs res ';'
  | .rc, cur, _ => is_templ_param cur.kind
  | .rd, cur, _ => cur.kind == .MacroDefinition
  | .re, cur, res => is_function cur.kind && !backIs res ';'
  | .rf, cur, res => cur.kind == .TypeAliasDecl && !backIs res ';'
  | .rg, cur, _ =>
    clang_isDeclaration cur.kind
      && cur.kind != .ParmDecl
      && cur.kind != .TemplateTypeParameter
      && cur.kind != .NonTypeTemplateParameter
      && cur.kind != .TemplateTemplateParameter
      && cur.kind != .CXXBaseSpecifier

/-- The action of each rule on `(tail, result, begin offset)`. -/
def applyRule : RuleId → Cursor → List Char → List Char → Nat → Option (List Char)
  | .ra, cur, _, res, off =>
    if off < cur.bodyBegin then
      if cur.bodyBegin - off ≤ res.length then
        some (res.take (cur.bodyBegin - off) ++ [';'])
      else none
    else none
  | .rb, _, _, res, _ => some (res ++ [';'])
  | .rc, _, tail, res, _ => ruleTemplParam tail res
  | .rd, _, _, res, _ => some (fixupMacroDef res)
  | .re, _, tail, res, _ => (scanToSemi tail).map (fun cs => res ++ cs ++ [';'])
  | .rf, _, tail, res, _ => (scanToSemi tail).map (fun cs => res ++ cs ++ [';'])
  | .rg, _, tail, res, _ => some (res ++ scanToNewline tail)

/-- The rule the first chain selects: the first of (a), (b) whose guard
holds, if any. -/
def chain1Rule (cur : Cursor) (res : List Char) : Option RuleId :=
  if ruleGuard .ra cur res then some .ra
  else if ruleGuard .rb cur res then some .rb
  else none

/-- The rule the second chain selects: the first of (c), (d), (e), (f), (g)
whose guard holds, if any. -/
def chain2Rule (cur : Cursor) (res : List Char) : Option RuleId :=
  if ruleGuard .rc cur res then some .rc
  else if ruleGuard .rd cur res then some .rd
  else if ruleGuard .re cur res then some .re
  else if ruleGuard .rf cur res then some .rf
  else if ruleGuard .rg cur res then some .rg
  else none

/-- The guarded terminator rule for class-like declarations, as a function
of the slice alone (rule (b) with its guard). -/
def classTerminatorRule (res : List Char) : List Char :=
  if !backIs res ';' then res ++ [';'] else res

/-! Token stream `skip` helpers. -/

/-- A token of the token stream; only its spelling matters to `skip`. -/
structure Token where
  value : String
deriving DecidableEq

/-- `parse_error(source_location(cur), "expected 'X' got 'Y'")`:
the location cursor, the expected literal and the actual token text. -/
structure ParseError where
  location : Cursor
  expected : String
  got : String
deriving DecidableEq

/-- `stream.peek().get_value()`; at the end of the stream the value is
empty (its first character reads as the NUL terminator). -/
def peekValue : List Token → String
  | [] => ""
  | t :: _ => t.value

/-- `std::isspace(stream.peek().get_value()[0])`. -/
def headCharIsSpace (s : String) : Bool :=
  match s.data with
  | [] => false
  | c :: _ => isCppSpace c

/-- `detail::skip_whitespace`: bump while the current token starts with
whitespace. -/
def skip_whitespace : List Token → List Token
  | [] => []
  | t :: ts => if headCharIsSpace t.value then skip_whitespace ts else t :: ts

/-- `detail::skip(stream, cur, value)`: consume the current token when its
value matches, otherwise raise a parse error without consuming. -/
def skip1 (stream : List Token) (cur : Cursor) (value : String) :
    Except ParseError (List Token) :=
  if peekValue stream ≠ value then
    .error ⟨cur, value, peekValue stream⟩
  else
    .ok (stream.drop 1)

/-- `detail::skip(stream, cur, values)`: skip each literal in order,
skipping whitespace after each. -/
def skipSeq (stream : List Token) (cur : Cursor) :
    List String → Except ParseError (List Token)
  | [] => .ok stream
  | v :: vs =>
    match skip1 stream cur v with
    | .error e => .error e
    | .ok s1 => skipSeq (skip_whitespace s1) cur vs

end Standardese

namespace Standardese

/-! Helper lemmas. -/

theorem getLast?_append_single (l : List Char) (c : Char) :
    (l ++ [c]).getLast? = some c := by
  simp

theorem backIs_append_semi (l : List Char) : backIs (l ++ [';']) ';' = true := by
  simp [backIs]

theorem is_function_eq (k : CursorKind) (h : is_function k = true) :
    k = .FunctionDecl ∨ k = .FunctionTemplate := by
  cases k <;> revert h <;> decide

theorem is_class_eq (k : CursorKind) (h : is_class k = true) :
    k = .ClassDecl ∨ k = .StructDecl ∨ k = .UnionDecl ∨ k = .ClassTemplate
      ∨ k = .ClassTemplatePartialSpecialization := by
  cases k <;> revert h <;> decide

theorem scanToNewline_nextCh (tail : List Char) (h : nextCh tail = '\n') :
    scanToNewline tail = [] := by
  cases tail with
  | nil => rfl
  | cons c cs =>
    simp only [nextCh] at h
    simp [scanToNewline, h]

end Standardese

namespace Standardese

theorem chain1_eq (cur : Cursor) (tail res : List Char) (off : Nat) :
    fixupChain1 cur res off =
      (match chain1Rule cur res with
       | some r => applyRule r cur tail res off
       | none => some res) := by
  by_cases ha : (is_function cur.kind && backIs res '\x7d') = true
  · simp [fixupChain1, chain1Rule, ruleGuard, applyRule, ha]
  · by_cases hb : (is_class cur.kind && !backIs res ';') = true
    · simp [fixupChain1, chain1Rule, ruleGuard, applyRule, ha, hb]
    · simp [fixupChain1, chain1Rule, ruleGuard, applyRule, ha, hb]

theorem chain2_eq (cur : Cursor) (tail res : List Char) (off : Nat) :
    fixupChain2 cur tail res =
      (match chain2Rule cur res with
       | some r => applyRule r cur tail res off
       | none => some res) := by
  by_cases hc : is_templ_param cur.kind = true
  · simp [fixupChain2, chain2Rule, ruleGuard, applyRule, hc]
  · by_cases hd : (cur.kind == CursorKind.MacroDefinition) = true
    · simp [fixupChain2, chain2Rule, ruleGuard, applyRule, hc, hd]
    · by_cases he : (is_function cur.kind && !backIs res ';') = true
      · simp [fixupChain2, chain2Rule, ruleGuard, applyRule, hc, hd, he]
      · by_cases hf : (cur.kind == CursorKind.TypeAliasDecl && !backIs res ';') = true
        · simp [fixupChain2, chain2Rule, ruleGuard, applyRule, hc, hd, he, hf]
        · by_cases hg : (clang_isDeclaration cur.kind
              && cur.kind != CursorKind.ParmDecl
              && cur.kind != CursorKind.TemplateTypeParameter
              && cur.kind != CursorKind.NonTypeTemplateParameter
              && cur.kind != CursorKind.TemplateTemplateParameter
              && cur.kind != CursorKind.CXXBaseSpecifier) = true
          · simp [fixupChain2, chain2Rule, ruleGuard, applyRule, hc, hd, he, hf, hg]
          · simp [fixupChain2, chain2Rule, ruleGuard, applyRule, hc, hd, he, hf, hg]

/-- C1 (amended): `fixup` is two sequential priority dispatches: the first
rule of (a), (b) whose guard holds is applied to the slice, then the first
rule of (c), (d), (e), (f), (g) whose guard holds is applied to the outcome;
within each chain at most one rule is applied, and when neither chain has a
matching rule the slice is returned unchanged (the `none`/`none` case of the
two selections). -/
theorem fixup_dispatch (cur : Cursor) (tail res : List Char) (off : Nat) :
    fixup cur tail res off =
      (match chain1Rule cur res with
       | some r => applyRule r cur tail res off
       | none => some res).bind
        (fun r1 =>
          match chain2Rule cur r1 with
          | some r => applyRule r cur tail r1 off
          | none => some r1) := by
  rw [fixup, chain1_eq cur tail res off]
  congr 1
  funext r1
  exact chain2_eq cur tail r1 off

/-- C1 (counterexample): on a function slice that ends in a body marker and
whose tail continues on the same line, the engine applies rule (a) and then
rule (g): the output matches no single rule's output and is not the
unchanged slice, so it is not the case that exactly one rule fires. -/
theorem fixup_two_rules_cex :
    fixup ⟨.FunctionDecl, 8⟩ (" int g();\n".toList) ("int f() \x7b return 0; \x7d".toList) 0
      = some ("int f() ; int g();".toList)
    ∧ applyRule .ra ⟨.FunctionDecl, 8⟩ (" int g();\n".toList) ("int f() \x7b return 0; \x7d".toList) 0
      ≠ some ("int f() ; int g();".toList)
    ∧ applyRule .rb ⟨.FunctionDecl, 8⟩ (" int g();\n".toList) ("int f() \x7b return 0; \x7d".toList) 0
      ≠ some ("int f() ; int g();".toList)
    ∧ applyRule .rc ⟨.FunctionDecl, 8⟩ (" int g();\n".toList) ("int f() \x7b return 0; \x7d".toList) 0
      ≠ some ("int f() ; int g();".toList)
    ∧ applyRule .rd ⟨.FunctionDecl, 8⟩ (" int g();\n".toList) ("int f() \x7b return 0; \x7d".toList) 0
      ≠ some ("int f() ; int g();".toList)
    ∧ applyRule .re ⟨.FunctionDecl, 8⟩ (" int g();\n".toList) ("int f() \x7b return 0; \x7d".toList) 0
      ≠ some ("int f() ; int g();".toList)
    ∧ applyRule .rf ⟨.FunctionDecl, 8⟩ (" int g();\n".toList) ("int f() \x7b return 0; \x7d".toList) 0
      ≠ some ("int f() ; int g();".toList)
    ∧ applyRule .rg ⟨.FunctionDecl, 8⟩ (" int g();\n".toList) ("int f() \x7b return 0; \x7d".toList) 0
      ≠ some ("int f() ; int g();".toList)
    ∧ some ("int f() \x7b return 0; \x7d".toList) ≠ some ("int f() ; int g();".toList) := by
  decide

end Standardese

namespace Standardese

theorem scanToSemi_isSome (tail : List Char) :
    (scanToSemi tail).isSome = tail.any (fun c => c == ';') := by
  induction tail with
  | nil => rfl
  | cons c rest ih =>
    by_cases h : c = ';'
    · subst h; rfl
    · simp [scanToSemi, h, ih]

theorem scanToNewline_length (tail : List Char) :
    (scanToNewline tail).length ≤ tail.length := by
  induction tail with
  | nil => simp [scanToNewline]
  | cons c rest ih =>
    by_cases h : c = '\n'
    · subst h; simp [scanToNewline]
    · simp [scanToNewline, h]
      omega

theorem scanToSemi_length (tail : List Char) :
    ((scanToSemi tail).getD []).length ≤ tail.length := by
  induction tail with
  | nil => simp [scanToSemi]
  | cons c rest ih =>
    by_cases h : c = ';'
    · subst h; simp [scanToSemi]
    · cases hs : scanToSemi rest with
      | none => simp [scanToSemi, h, hs]
      | some pre =>
        rw [hs] at ih
        simp [scanToSemi, h, hs]
        simpa using ih

/-- C4 (amended): the scan of rule (g) is bounded by the buffer (it stops at
a newline or the end), and the scans of rules (e)/(f) reach a terminator
exactly when the remaining buffer contains one — with no terminator in the
buffer the scan fails (the C loop runs past the end); all scans are linear
in the scanned length.  The sentinel newline of the token-stream
constructor plays no part in bounding these scans. -/
theorem scan_termination (tail res : List Char) (off bb : Nat) :
    (scanToSemi tail).isSome = tail.any (fun c => c == ';')
    ∧ (scanToNewline tail).length ≤ tail.length
    ∧ ((scanToSemi tail).getD []).length ≤ tail.length
    ∧ fixup ⟨.OtherDecl, bb⟩ tail res off = some (res ++ scanToNewline tail) := by
  exact ⟨scanToSemi_isSome tail, scanToNewline_length tail, scanToSemi_length tail, rfl⟩

/-- C4 (counterexample): a function slice not ending in a terminator whose
tail holds no terminator: the rule (e) scan never reaches a `';'` within the
buffer, so the reconstruction is not bounded by the buffer (modelled as
`none`); the claim that the forward scans always reach a terminator fails. -/
theorem scan_no_terminator_cex :
    scanToSemi (" = delete".toList) = none
    ∧ fixup ⟨.FunctionDecl, 0⟩ (" = delete".toList) ("void f()".toList) 0 = none := by
  decide

end Standardese

namespace Standardese

theorem needsCloseParen_eq_find (l : List Char) :
    needsCloseParen l = (l.find? (fun c => c == '(' || c == ')') == some '(') := by
  induction l with
  | nil => rfl
  | cons c rest ih =>
    by_cases hp : c = ')'
    · subst hp; rfl
    · by_cases ho : c = '('
      · subst ho; rfl
      · simp only [needsCloseParen, List.find?]
        have hp' : (c == ')') = false := by simp [hp]
        have ho' : (c == '(') = false := by simp [ho]
        simp [hp', ho', ih]

/-- C5: for a macro-definition cursor the engine applies exactly the
backward-scan rule (d): when in the reversed slice a `'('` is met before any
`')'` a single `')'` is appended, otherwise (a `')'` first, or no
parenthesis at all) the slice is unchanged; in every case the output is the
slice or the slice plus one `')'`, never more. -/
theorem fixup_MacroDefinition_rule (bb off : Nat) (tail res : List Char) :
    fixup ⟨.MacroDefinition, bb⟩ tail res off = some (fixupMacroDef res)
    ∧ fixupMacroDef res
      = (if res.reverse.find? (fun c => c == '(' || c == ')') == some '('
         then res ++ [')'] else res)
    ∧ (fixup ⟨.MacroDefinition, bb⟩ tail res off = some res
       ∨ fixup ⟨.MacroDefinition, bb⟩ tail res off = some (res ++ [')'])) := by
  refine ⟨rfl, ?_, ?_⟩
  · rw [fixupMacroDef, needsCloseParen_eq_find]
  · by_cases h : needsCloseParen res.reverse = true
    · right
      show some (fixupMacroDef res) = _
      rw [fixupMacroDef, h]
      simp
    · left
      show some (fixupMacroDef res) = _
      rw [fixupMacroDef]
      simp [h]

/-- C7: when the range resolver reports no file, `read_source` returns empty
text, successfully (`some`), for every cursor and buffer alike — no
correction rule is consulted (the outcome does not depend on the cursor). -/
theorem read_source_no_file (fe : Bool) (b e : Nat) (src : List Char)
    (cur cur2 : Cursor) :
    read_source false fe b e src cur = some []
    ∧ read_source false fe b e src cur = read_source false fe b e src cur2 := by
  exact ⟨rfl, rfl⟩

end Standardese

namespace Standardese

/-- C2 (amended): for a function slice ending in a body marker (with the
split point strictly past the begin offset and within the slice), the
reconstructed text is the slice truncated to `[decl_begin, split_point)`
plus one appended terminator — followed by the tail's characters up to the
first newline, which rule (g) subsequently copies; when the tail starts with
a newline the result is exactly the truncation plus a single terminator and
contains no body text. -/
theorem fixup_function_body (cur : Cursor) (tail res : List Char) (off : Nat)
    (hf : is_function cur.kind = true)
    (hb : backIs res '\x7d' = true)
    (h1 : off < cur.bodyBegin)
    (h2 : cur.bodyBegin - off ≤ res.length) :
    fixup cur tail res off
      = some (res.take (cur.bodyBegin - off) ++ [';'] ++ scanToNewline tail)
    ∧ (nextCh tail = '\n' →
        fixup cur tail res off = some (res.take (cur.bodyBegin - off) ++ [';'])) := by
  obtain ⟨k, bb⟩ := cur
  simp only at hf h1 h2
  have hch1 : fixupChain1 ⟨k, bb⟩ res off = some (res.take (bb - off) ++ [';']) := by
    simp [fixupChain1, hf, hb, h1, h2]
  have hback : backIs (res.take (bb - off) ++ [';']) ';' = true := backIs_append_semi _
  have hch2 : fixupChain2 ⟨k, bb⟩ tail (res.take (bb - off) ++ [';'])
      = some ((res.take (bb - off) ++ [';']) ++ scanToNewline tail) := by
    rcases is_function_eq k hf with rfl | rfl
    · simp [fixupChain2, is_templ_param, is_function, clang_isDeclaration, hback]
    · simp [fixupChain2, is_templ_param, is_function, clang_isDeclaration, hback]
  constructor
  · rw [fixup, hch1]
    simp [hch2, List.append_assoc]
  · intro hn
    rw [fixup, hch1]
    simp [hch2, scanToNewline_nextCh tail hn]

/-- C2 (witness): the end-to-end function example with a newline tail. -/
theorem fixup_function_body_witness :
    fixup ⟨.FunctionDecl, 13⟩ ("\n".toList) ("int f(int x) \x7b return x; \x7d".toList) 0
      = some ("int f(int x) ;".toList) := by
  have h := fixup_function_body ⟨.FunctionDecl, 13⟩ ("\n".toList)
      ("int f(int x) \x7b return x; \x7d".toList) 0 (by decide) (by decide) (by decide)
      (by decide)
  exact h.2 (by decide)

/-- C3 (amended): for a class-like slice not ending in a terminator the
engine appends exactly one terminator and then (rule (g)) the tail's
characters up to the first newline; the appended text therefore ends a
terminator only when the copied tail segment is empty (in particular when
the tail starts with a newline, the result ends with exactly one
terminator); the guarded terminator rule itself is idempotent. -/
theorem fixup_class_terminator (cur : Cursor) (tail res : List Char) (off : Nat)
    (hc : is_class cur.kind = true)
    (_hne : res ≠ [])
    (hb : backIs res ';' = false) :
    fixup cur tail res off = some (res ++ [';'] ++ scanToNewline tail)
    ∧ (res ++ [';']).getLast? = some ';'
    ∧ (∀ r : List Char, classTerminatorRule (classTerminatorRule r) = classTerminatorRule r)
    ∧ (nextCh tail = '\n' → fixup cur tail res off = some (res ++ [';'])) := by
  obtain ⟨k, bb⟩ := cur
  simp only at hc
  have hmain : fixup ⟨k, bb⟩ tail res off = some (res ++ [';'] ++ scanToNewline tail) := by
    have hch1 : fixupChain1 ⟨k, bb⟩ res off = some (res ++ [';']) := by
      rcases is_class_eq k hc with rfl | rfl | rfl | rfl | rfl <;>
        simp [fixupChain1, is_function, is_class, hb]
    have hch2 : fixupChain2 ⟨k, bb⟩ tail (res ++ [';'])
        = some ((res ++ [';']) ++ scanToNewline tail) := by
      rcases is_class_eq k hc with rfl | rfl | rfl | rfl | rfl <;>
        simp [fixupChain2, is_templ_param, is_function, is_class, clang_isDeclaration]
    rw [fixup, hch1]
    simp [hch2, List.append_assoc]
  refine ⟨hmain, getLast?_append_single res ';', ?_, ?_⟩
  · intro r
    by_cases h : backIs r ';' = true
    · simp [classTerminatorRule, h]
    · simp [classTerminatorRule, h, backIs_append_semi]
  · intro hn
    rw [hmain, scanToNewline_nextCh tail hn]
    simp

/-- C3 (witness): the end-to-end class example with a newline tail. -/
theorem fixup_class_terminator_witness :
    fixup ⟨.StructDecl, 0⟩ ("\n".toList) ("struct S \x7b int x; \x7d".toList) 0
      = some ("struct S \x7b int x; \x7d;".toList) := by
  have h := fixup_class_terminator ⟨.StructDecl, 0⟩ ("\n".toList)
      ("struct S \x7b int x; \x7d".toList) 0 (by decide) (by decide) (by decide)
  exact h.2.2.2 (by decide)

/-- C3 (counterexample): a class-like slice whose tail continues on the same
line with text not ending in a terminator: after the terminator is appended,
rule (g) copies the tail segment, so the reconstructed text does not end
with a terminator — the claim that class-like reconstructions always end
with exactly one terminator fails. -/
theorem class_terminator_cex :
    fixup ⟨.ClassDecl, 0⟩ (" int q\n".toList) ("struct S \x7b\x7d".toList) 0
      = some ("struct S \x7b\x7d; int q".toList)
    ∧ (("struct S \x7b\x7d; int q".toList)).getLast? ≠ some ';' := by
  decide

end Standardese

namespace Standardese

theorem copyBalanced_cons_open (n : Nat) (rest : List Char) :
    copyBalanced n ('(' :: rest) =
      (match copyBalanced (n + 1) rest with
       | none => none
       | some (cs, rem) => some ('(' :: cs, rem)) := by
  simp [copyBalanced]

theorem copyBalanced_cons_close_one (rest : List Char) :
    copyBalanced 1 (')' :: rest) = some ([')'], rest) := by
  simp [copyBalanced]

theorem copyBalanced_cons_close (k : Nat) (rest : List Char) :
    copyBalanced (k + 2) (')' :: rest) =
      (match copyBalanced (k + 1) rest with
       | none => none
       | some (cs, rem) => some (')' :: cs, rem)) := by
  simp [copyBalanced]

theorem copyBalanced_cons_other (n : Nat) (c : Char) (rest : List Char)
    (hop : c ≠ '(') (hcl : c ≠ ')') (hn : 1 ≤ n) :
    copyBalanced n (c :: rest) =
      (match copyBalanced n rest with
       | none => none
       | some (cs, rem) => some (c :: cs, rem)) := by
  obtain ⟨m, rfl⟩ : ∃ m, n = m + 1 := ⟨n - 1, by omega⟩
  simp [copyBalanced, hop, hcl]

end Standardese

namespace Standardese

theorem copyBalanced_count (l : List Char) : ∀ (n : Nat) (cs rem : List Char),
    1 ≤ n → copyBalanced n l = some (cs, rem) →
    cs.count ')' = cs.count '(' + n := by
  induction l with
  | nil =>
    intro n cs rem hn hc
    simp [copyBalanced] at hc
  | cons c rest ih =>
    intro n cs rem hn hc
    by_cases hop : c = '('
    · subst hop
      rw [copyBalanced_cons_open] at hc
      cases hrec : copyBalanced (n + 1) rest with
      | none => rw [hrec] at hc; simp at hc
      | some pr =>
        obtain ⟨cs1, rem1⟩ := pr
        rw [hrec] at hc
        simp only [Option.some.injEq, Prod.mk.injEq] at hc
        obtain ⟨h1, h2⟩ := hc
        subst h1
        have hcnt := ih (n + 1) cs1 rem1 (by omega) hrec
        simp [List.count_cons, hcnt]
        omega
    · by_cases hcl : c = ')'
      · subst hcl
        obtain ⟨m, rfl⟩ : ∃ m, n = m + 1 := ⟨n - 1, by omega⟩
        cases m with
        | zero =>
          rw [copyBalanced_cons_close_one] at hc
          simp only [Option.some.injEq, Prod.mk.injEq] at hc
          obtain ⟨h1, h2⟩ := hc
          subst h1
          simp
        | succ k =>
          rw [show k + 1 + 1 = k + 2 from rfl, copyBalanced_cons_close] at hc
          cases hrec : copyBalanced (k + 1) rest with
          | none => rw [hrec] at hc; simp at hc
          | some pr =>
            obtain ⟨cs1, rem1⟩ := pr
            rw [hrec] at hc
            simp only [Option.some.injEq, Prod.mk.injEq] at hc
            obtain ⟨h1, h2⟩ := hc
            subst h1
            have hcnt := ih (k + 1) cs1 rem1 (by omega) hrec
            simp [List.count_cons, hcnt]
            omega
      · rw [copyBalanced_cons_other n c rest hop hcl hn] at hc
        cases hrec : copyBalanced n rest with
        | none => rw [hrec] at hc; simp at hc
        | some pr =>
          obtain ⟨cs1, rem1⟩ := pr
          rw [hrec] at hc
          simp only [Option.some.injEq, Prod.mk.injEq] at hc
          obtain ⟨h1, h2⟩ := hc
          subst h1
          have hcnt := ih n cs1 rem1 hn hrec
          simp [List.count_cons, hcnt, hop, hcl]

end Standardese

namespace Standardese

/-- C6 (amended): for a template-parameter cursor the engine applies rule
(c) alone; after skipping leading whitespace and copying a parenthesized
group, the slice's trailing character is removed exactly when the tail's
next character is neither a comma nor a closing angle bracket AND the
trailing character is itself a closing angle bracket (otherwise the slice
is left as is); a successfully copied group closes every parenthesis it
opens (one more `')'` than nested `'('`, counting the consumed opener). -/
theorem fixup_templ_param (bb off n : Nat) (tail res r t l cs rem : List Char)
    (h1 : nextCh t ≠ '>') (h2 : nextCh t ≠ ',')
    (hn : 1 ≤ n) (hc : copyBalanced n l = some (cs, rem)) :
    fixup ⟨.TemplateTypeParameter, bb⟩ tail res off = ruleTemplParam tail res
    ∧ fixup ⟨.NonTypeTemplateParameter, bb⟩ tail res off = ruleTemplParam tail res
    ∧ fixup ⟨.TemplateTemplateParameter, bb⟩ tail res off = ruleTemplParam tail res
    ∧ (backIs r '>' = true → templParamPop r t = r.dropLast)
    ∧ (backIs r '>' = false → templParamPop r t = r)
    ∧ cs.count ')' = cs.count '(' + n := by
  refine ⟨rfl, rfl, rfl, ?_, ?_, copyBalanced_count l n cs rem hn hc⟩
  · intro hb
    simp [templParamPop, h1, h2, hb]
  · intro hb
    simp [templParamPop, h1, h2, hb]

/-- C6 (witness): concrete instance of the template-parameter rule facts. -/
theorem fixup_templ_param_witness :
    fixup ⟨.TemplateTypeParameter, 0⟩ ['x'] ("T".toList) 0 = ruleTemplParam ['x'] ("T".toList)
    ∧ fixup ⟨.NonTypeTemplateParameter, 0⟩ ['x'] ("T".toList) 0 = ruleTemplParam ['x'] ("T".toList)
    ∧ fixup ⟨.TemplateTemplateParameter, 0⟩ ['x'] ("T".toList) 0 = ruleTemplParam ['x'] ("T".toList)
    ∧ (backIs ("a>".toList) '>' = true → templParamPop ("a>".toList) ['x'] = (("a>".toList)).dropLast)
    ∧ (backIs ("a>".toList) '>' = false → templParamPop ("a>".toList) ['x'] = ("a>".toList))
    ∧ (("b)".toList)).count ')' = (("b)".toList)).count '(' + 1 := by
  exact fixup_templ_param 0 0 1 ['x'] ("T".toList) ("a>".toList) ['x'] ("b)".toList) ("b)".toList) []
    (by decide) (by decide) (by decide) (by decide)

/-- C6 (counterexample): a template-parameter slice whose trailing character
is not an angle bracket, with a tail whose next character is neither a comma
nor a closing angle bracket: the engine does not remove the trailing
character, contradicting the claim that it always does in this situation. -/
theorem templ_param_no_pop_cex :
    fixup ⟨.TemplateTypeParameter, 0⟩ ['f'] ("int x".toList) 0 = some ("int x".toList)
    ∧ some ("int x".toList) ≠ some ((("int x".toList)).dropLast) := by
  decide

end Standardese

namespace Standardese

/-- C8: `skip` of a literal consumes the current token exactly when it
matches, and otherwise raises a structural-mismatch error carrying the
location, the expected literal and the actual token text, consuming
nothing; `skip` of a sequence applies this literal by literal with
whitespace skipped after each, so over tokens `a`, whitespace, `b` the
sequence `a, b` succeeds silently, and over `a`, whitespace, `c` it fails
reporting expected `b`, actual `c`. -/
theorem skip_spec (cur : Cursor) (s t : List Token) (lit mlit : String)
    (hne : peekValue s ≠ lit) (heq : peekValue t = mlit) :
    skip1 s cur lit = .error ⟨cur, lit, peekValue s⟩
    ∧ skip1 t cur mlit = .ok (t.drop 1)
    ∧ skipSeq [⟨"a"⟩, ⟨" "⟩, ⟨"b"⟩] cur ["a", "b"] = .ok []
    ∧ skipSeq [⟨"a"⟩, ⟨" "⟩, ⟨"c"⟩] cur ["a", "b"] = .error ⟨cur, "b", "c"⟩ := by
  refine ⟨?_, ?_, rfl, rfl⟩
  · simp [skip1, hne]
  · simp [skip1, heq]

/-- C8 (witness): concrete instance of the `skip` facts. -/
theorem skip_spec_witness :
    skip1 [⟨"x"⟩] ⟨.NotADecl, 0⟩ ("y") = .error ⟨⟨.NotADecl, 0⟩, "y", "x"⟩
    ∧ skip1 [⟨"z"⟩] ⟨.NotADecl, 0⟩ ("z") = .ok []
    ∧ skipSeq [⟨"a"⟩, ⟨" "⟩, ⟨"b"⟩] ⟨.NotADecl, 0⟩ ["a", "b"] = .ok []
    ∧ skipSeq [⟨"a"⟩, ⟨" "⟩, ⟨"c"⟩] ⟨.NotADecl, 0⟩ ["a", "b"]
      = .error ⟨⟨.NotADecl, 0⟩, "b", "c"⟩ := by
  exact skip_spec ⟨.NotADecl, 0⟩ [⟨"x"⟩] [⟨"z"⟩] ("y") ("z") (by decide) (by decide)

/-- C9: the two defensive assertions are unconditional aborts and under them
slice extraction is sound: with a file resolved but an inverted or empty
range, `read_source` aborts before extracting anything; with the
function-body rule selected but a split point not strictly past the begin
offset, `fixup` aborts; and any range with `begin < end` within the buffer
yields a non-empty raw slice. -/
theorem assert_faults (b e off b2 e2 : Nat) (src tail res : List Char) (cur : Cursor)
    (hbe : ¬ b < e)
    (hf : is_function cur.kind = true) (hbr : backIs res '\x7d' = true)
    (hbb : ¬ off < cur.bodyBegin)
    (hb2 : b2 < e2) (he2 : e2 ≤ src.length) :
    read_source true true b e src cur = none
    ∧ fixup cur tail res off = none
    ∧ 0 < ((src.drop b2).take (e2 - b2)).length := by
  refine ⟨?_, ?_, ?_⟩
  · simp [read_source, hbe]
  · have hch : fixupChain1 cur res off = none := by
      simp [fixupChain1, hf, hbr, hbb]
    rw [fixup, hch]
    rfl
  · simp only [List.length_take, List.length_drop]
    omega

/-- C9 (witness): concrete aborts and a concrete non-empty slice. -/
theorem assert_faults_witness :
    read_source true true 5 3 ("abc".toList) ⟨.FunctionDecl, 0⟩ = none
    ∧ fixup ⟨.FunctionDecl, 0⟩ [] ("x\x7d".toList) 7 = none
    ∧ 0 < (((("abc".toList)).drop 0).take (2 - 0)).length := by
  exact assert_faults 5 3 7 0 2 ("abc".toList) [] ("x\x7d".toList) ⟨.FunctionDecl, 0⟩
    (by decide) (by decide) (by decide) (by decide) (by decide) (by decide)

/-- C10: the corrected byte range `read_range` reports begins at the
provider's begin offset and ends at that begin offset plus the length of
the reconstructed text, so the corrected range's length equals the text's
length; when no file is resolved the reconstructed text is empty and the
corrected range is the empty range `(0, 0)`. -/
theorem read_range_corrected (hf fe : Bool) (b e : Nat) (src : List Char)
    (cur : Cursor) (s : List Char)
    (hs : read_source hf fe b e src cur = some s) :
    read_range hf fe b e src cur = some (b, b + s.length)
    ∧ b + s.length - b = s.length
    ∧ (∀ (fe2 : Bool) (src2 : List Char) (cur2 : Cursor),
        read_range false fe2 0 0 src2 cur2 = some (0, 0)) := by
  refine ⟨?_, by omega, fun fe2 src2 cur2 => rfl⟩
  simp [read_range, hs]

/-- C10 (witness): a concrete corrected range. -/
theorem read_range_corrected_witness :
    read_range true true 0 6 ("int x;\n".toList) ⟨.NotADecl, 0⟩ = some (0, 6)
    ∧ 0 + (("int x;".toList)).length - 0 = (("int x;".toList)).length
    ∧ (∀ (fe2 : Bool) (src2 : List Char) (cur2 : Cursor),
        read_range false fe2 0 0 src2 cur2 = some (0, 0)) := by
  exact read_range_corrected true true 0 6 ("int x;\n".toList) ⟨.NotADecl, 0⟩
    ("int x;".toList) (by decide)

end Standardese

namespace Standardese

/-- C2 (counterexample): a function slice ending in a body marker whose tail
continues on the same line: after the truncation and terminator of rule (a),
rule (g) copies the tail up to the newline, so the reconstructed text is not
the truncation plus a single terminator. -/
theorem function_body_extra_copy_cex :
    fixup ⟨.FunctionDecl, 9⟩ ((" int y;\n".toList)) (("void f() \x7b\x7d".toList)) 0
      = some (("void f() ; int y;".toList))
    ∧ some (("void f() ; int y;".toList)) ≠ some (("void f() ;".toList)) := by
  decide

end Standardese
